import Mathlib

/-!
Shallow embedding of the OLI Cloud API client
(`watertap/tools/oli_api/client.py`) and proofs about its batch
request/poll orchestration layer.

Python exceptions are modelled by the `PyErr` inductive; fallible code
returns `Except PyErr _`.  JSON documents are modelled by the `Json`
inductive with Python truthiness (`Json.truthy`) and dict access
(`Json.getKey`).  Network I/O is modelled by oracles: each dispatched
call reads its submission response and its stream of poll responses
from a `CallWorld`; functions that issue HTTP requests additionally
return the number of requests issued, so that "no network call is
made" claims are statable.
-/

set_option autoImplicit false

/-- JSON documents (Python objects decoded from response bodies). -/
inductive Json where
  | null
  | bool (b : Bool)
  | num (n : Int)
  | str (s : String)
  | arr (elems : List Json)
  | obj (fields : List (String × Json))

/-- Python exceptions raised by the client, by raise site.
`ioError` models `IOError` (the spec's ConfigurationError),
`runtimeError` models `RuntimeError` with a rendered message
(the spec's UnsupportedOperationError / PollTimeoutError),
`statusTestFailure fn resp` models the `RuntimeError` raised by
`_request_status_test` (message `"Failure in {fn}. Response: {resp}"`,
the spec's UnexpectedResponseError / RemoteOperationError), and
`unboundLocalError` / `nameError` / `keyError` / `typeError` model the
corresponding Python interpreter errors. -/
inductive PyErr where
  | ioError (msg : String)
  | runtimeError (msg : String)
  | statusTestFailure (func_name : String) (response : Json)
  | unboundLocalError (var : String)
  | nameError (var : String)
  | keyError (key : String)
  | typeError (msg : String)

/-- Association-list lookup, first match wins: Python `d[key]` / `key in d`. -/
def lookupField : List (String × Json) → String → Option Json
  | [], _ => none
  | (k, v) :: rest, key => if k = key then some v else lookupField rest key

/-- Python `d[key]` on a JSON object (`none` when the key is absent or
the value is not an object). -/
def Json.getKey : Json → String → Option Json
  | .obj fields, key => lookupField fields key
  | _, _ => none

/-- Python truthiness of a JSON value. -/
def Json.truthy : Json → Bool
  | .null => false
  | .bool b => b
  | .num n => n != 0
  | .str s => s != ""
  | .arr elems => !elems.isEmpty
  | .obj fields => !fields.isEmpty

/-- Python `d[key] = v` on an association list: replace in place, else append. -/
def setField : List (String × Json) → String → Json → List (String × Json)
  | [], key, v => [(key, v)]
  | (k, w) :: rest, key, v =>
    if k = key then (k, v) :: rest else (k, w) :: setField rest key v

/-- Python `d[key] = v`: item assignment, a `TypeError` on a non-object. -/
def Json.setKey : Json → String → Json → Except PyErr Json
  | .obj fields, key, v => .ok (.obj (setField fields key v))
  | _, _, _ => .error (.typeError "item assignment on non-object")

/-- Python `value in list_of_strings` for a JSON value: only a JSON
string can equal a Python string. -/
def Json.isStrIn : Json → List String → Bool
  | .str s, keys => keys.contains s
  | _, _ => false

/-- An HTTP response: status code and decoded JSON body
(`req.status_code` and `req.json()`). -/
structure HttpResp where
  status_code : Nat
  body : Json

/-- The credential collaborator's read-only surface used by the client:
authenticated headers and the engine base URL. -/
structure CredentialManager where
  headers : List (String × String)
  engine_url : String

/-- Modelled from the spec: `CredentialManager.update_headers` lives in
the credentials module, which is not among the sources; per the spec it
"layers additional headers (e.g., `Content-Type: application/json`)
onto the base set without discarding authentication headers". -/
def update_headers (cm : CredentialManager) (extra : List (String × String)) :
    List (String × String) :=
  cm.headers.filter (fun h => extra.all (fun e => e.1 != h.1)) ++ extra

/-- `OLIApi._get_flash_mode`: resolve a flash method and DBS file ID to
an HTTP verb, URL and headers, translated line by line from the source.
The second string of the `RuntimeError` message is not an f-string in
the source, so the braces and their contents appear literally. -/
def _get_flash_mode (cm : CredentialManager) (dbs_file_id : String)
    (flash_method : String) (burst_job_tag : Option String) :
    Except PyErr (String × String × List (String × String)) :=
  if flash_method = "" then .error (.ioError "Specify a flash method to run.")
  else if dbs_file_id = "" then .error (.ioError "Specify a DBS file ID to flash.")
  else
    let base_url := cm.engine_url
    if flash_method ∈ ["corrosion-contact-surface", "chemistry-info"] then
      .ok ("GET", base_url ++ "/file/" ++ dbs_file_id ++ "/" ++ flash_method,
        cm.headers)
    else if flash_method ∈ ["isothermal", "corrosion-rates", "wateranalysis"] then
      let url := base_url ++ "/flash/" ++ dbs_file_id ++ "/" ++ flash_method
      let headers := update_headers cm [("Content-Type", "application/json")]
      let url := match burst_job_tag with
        | some tag => url ++ "?" ++ "burst=" ++ "watertap_burst" ++ "_" ++ tag
        | none => url
      .ok ("POST", url, headers)
    else
      .error (.runtimeError ((" Unexpected value for flash_method: "
        ++ flash_method ++ ". ")
        ++ "Valid values: \x7b\x27, \x27.join(valid_flashes)\x7d."))

/-- `OLIApi._request_status_test`: accept an HTTP 200 response whose
body's `status` field is among `target_keys` (or any 200 response when
`target_keys` is `None` or empty, mirroring Python truthiness of the
argument); otherwise raise `RuntimeError(f"Failure in {func_name}. ...")`,
modelled as `PyErr.statusTestFailure func_name body`. -/
def _request_status_test (req : HttpResp) (target_keys : Option (List String))
    (func_name : String) : Except PyErr Json :=
  let req_json := req.body
  if req.status_code = 200 then
    match target_keys with
    | some keys =>
      if keys.isEmpty then .ok req_json
      else
        match req_json.getKey "status" with
        | some v =>
          if v.isStrIn keys then .ok req_json
          else .error (.statusTestFailure func_name req_json)
        | none => .error (.statusTestFailure func_name req_json)
    | none => .ok req_json
  else .error (.statusTestFailure func_name req_json)

example : _get_flash_mode ⟨[("a", "t")], "E"⟩ "abc" "chemistry-info" none =
    .ok ("GET", "E/file/abc/chemistry-info", [("a", "t")]) := rfl

example : _get_flash_mode ⟨[("a", "t")], "E"⟩ "abc" "wateranalysis" (some "42") =
    .ok ("POST", "E/flash/abc/wateranalysis?burst=watertap_burst_42",
      [("a", "t"), ("Content-Type", "application/json")]) := rfl

/-- `OLIApi._get_result_link`: extract `data.resultsLink` from an
accepted submission response.  The source initialises `result_link`
to `""` and conditionally overwrites it; both `resultsLink` reads are
nested inside `if "status" in req_json["data"]:`, so a `data` object
without a `status` subfield never yields a link.  On a falsy final
value the source logs `f"... {req.json()}"` — but `req` is not a name
in the function's scope (its parameter is `req_json`), so reaching
that line raises `NameError`, modelled as `PyErr.nameError "req"`. -/
def _get_result_link (req_json : Json) : Except PyErr Json :=
  let result_link : Json := .str ""
  let result_link : Json :=
    match req_json.getKey "data" with
    | none => result_link
    | some d =>
      match d.getKey "status" with
      | none => result_link
      | some st =>
        let result_link :=
          if st.isStrIn ["IN QUEUE", "IN PROGRESS"] then
            match d.getKey "resultsLink" with
            | some l => l
            | none => result_link
          else result_link
        match d.getKey "resultsLink" with
        | some l => l
        | none => result_link
  if !result_link.truthy then .error (.nameError "req")
  else .ok result_link

/-- The accepted statuses of a poll response, in source order. -/
def pollStatuses : List String := ["IN QUEUE", "IN PROGRESS", "PROCESSED", "FAILED"]

/-- Outcome of one iteration of the `_poll_result_link` loop body. -/
inductive PollOutcome where
  | done (d : Json)
  | fail (e : PyErr)
  | again

/-- One iteration of the `_poll_result_link` loop body: run the status
test, and on a `PROCESSED`/`FAILED` status with a truthy `data` payload
return the payload; a terminal status with a falsy payload (or any
accepted non-terminal status) falls through to the sleep and the next
fetch.  Reading `result_req["data"]` on a body without a `data` key is
a Python `KeyError` (the `status` arm's `KeyError` is unreachable after
a passing status test). -/
def pollStep (result_req : HttpResp) : PollOutcome :=
  match _request_status_test result_req (some pollStatuses) "_poll_result_link" with
  | .error e => .fail e
  | .ok body =>
    match body.getKey "status" with
    | some v =>
      if v.isStrIn ["PROCESSED", "FAILED"] then
        match body.getKey "data" with
        | none => .fail (.keyError "data")
        | some d => if d.truthy then .done d else .again
      else .again
    | none => .fail (.keyError "status")

/-- The `for _ in range(max_request)` loop of `_poll_result_link`:
`i` is the number of fetches made so far, the second component of the
result is the total number of fetches made. -/
def pollLoop (fetch : Nat → HttpResp) : Nat → Nat → Except PyErr Json × Nat
  | i, 0 => (.error (.runtimeError "Poll limit exceeded."), i)
  | i, fuel + 1 =>
    match pollStep (fetch i) with
    | .done d => (.ok d, i + 1)
    | .fail e => (.error e, i + 1)
    | .again => pollLoop fetch (i + 1) fuel

/-- `OLIApi._poll_result_link`: fetch the result link up to
`max_request` times; the `j`-th fetch reads `fetch j`.  Returns the
outcome together with the number of fetches issued. -/
def _poll_result_link (fetch : Nat → HttpResp) (max_request : Nat) :
    Except PyErr Json × Nat :=
  pollLoop fetch 0 max_request

/-- The network an individual dispatched call observes: its submission
response, and its poll responses by fetch number. -/
structure CallWorld where
  submitResp : HttpResp
  pollResp : Nat → HttpResp

/-- The `submitted_requests` record that `call_async` attaches to each
result. -/
def submittedOf (flash_method dbs_file_id : String) (input_params : Json) : Json :=
  .obj [("flash_method", .str flash_method),
        ("dbs_file_id", .str dbs_file_id),
        ("input_params", input_params)]

/-- `OLIApi.call_async`: resolve the flash mode, submit the request,
check the submission response, extract the result link, poll, and
return `{index: result}` with `result["submitted_requests"]` set.
The second component counts HTTP requests issued (the submission plus
one per poll fetch); the dispatch failure cases issue none.  The
`await asyncio.sleep` suspension points do not affect the value. -/
def call_async (w : CallWorld) (cm : CredentialManager)
    (flash_method dbs_file_id : String) (input_params : Json)
    (burst_job_tag : Option String) (index : Nat) (max_request : Nat) :
    Except PyErr (Nat × Json) × Nat :=
  match _get_flash_mode cm dbs_file_id flash_method burst_job_tag with
  | .error e => (.error e, 0)
  | .ok (_mode, _url, _headers) =>
    match _request_status_test w.submitResp (some ["SUCCESS"]) "call_async" with
    | .error e => (.error e, 1)
    | .ok req_json =>
      match _get_result_link req_json with
      | .error e => (.error e, 1)
      | .ok _result_link =>
        match _poll_result_link w.pollResp max_request with
        | (.error e, n) => (.error e, 1 + n)
        | (.ok result, n) =>
          match result.setKey "submitted_requests"
              (submittedOf flash_method dbs_file_id input_params) with
          | .error e => (.error e, 1 + n)
          | .ok result' => (.ok (index, result'), 1 + n)

/-- A flash-request dictionary as supplied to `process_request_list`:
keys `flash_method`, `dbs_file_id`, `input_params`, splatted into
`call_async` by `**request`. -/
structure FlashRequest where
  flash_method : String
  dbs_file_id : String
  input_params : Json

/-- The branch structure of `batch_generator` that fixes the effective
batch size and batch count.  Python truthiness: `not batch_size` is
true for `None` and `0`.  When `batch_size` is falsy or exceeds the
request count the whole sequence is one batch and the log label is
`"batch"`; otherwise `num_batches = ceil(num_requests / batch_size)`
and the label is assigned only when `num_batches > 1` — so for
`batch_size == num_requests` the log f-string reads the unassigned
local `label` and raises `UnboundLocalError`. -/
def batchPlan (num_requests : Nat) (batch_size : Option Nat) :
    Except PyErr (Nat × Nat) :=
  let bs := batch_size.getD 0
  if bs = 0 ∨ num_requests < bs then .ok (num_requests, 1)
  else
    let num_batches := num_requests / bs + (if num_requests % bs ≠ 0 then 1 else 0)
    if 1 < num_batches then .ok (bs, num_batches)
    else .error (.unboundLocalError "label")

/-- The `for batch in range(num_batches)` loop of `batch_generator`:
emit `(batch*batch_size, (batch+1)*batch_size)` slice bounds, breaking
after the bound whose upper end reaches the request count. -/
def boundsLoop (bs n : Nat) : Nat → Nat → List (Nat × Nat)
  | 0, _ => []
  | fuel + 1, k =>
    if n ≤ (k + 1) * bs then [(k * bs, (k + 1) * bs)]
    else (k * bs, (k + 1) * bs) :: boundsLoop bs n fuel (k + 1)

/-- `call_generator` over one batch followed in order by the rest of
the list: dispatch each request with its index in the original
sequence.  `asyncio.gather` collects results positionally, so the
collected batch preserves this order regardless of completion order;
an exception raised by any call propagates out of the gather. -/
def callSeq (w : Nat → CallWorld) (cm : CredentialManager)
    (burst_job_tag : Option String) (max_request : Nat) :
    List FlashRequest → Nat → Except PyErr (List (Nat × Json))
  | [], _ => .ok []
  | r :: rest, idx =>
    match (call_async (w idx) cm r.flash_method r.dbs_file_id r.input_params
        burst_job_tag idx max_request).1 with
    | .error e => .error e
    | .ok p =>
      match callSeq w cm burst_job_tag max_request rest (idx + 1) with
      | .error e => .error e
      | .ok ps => .ok (p :: ps)

/-- The `collect_results` loop: run each batch's slice
`requests[lo:hi]` (with original-sequence indices starting at `lo`)
and extend the result list in batch order. -/
def runBatches (w : Nat → CallWorld) (cm : CredentialManager)
    (burst_job_tag : Option String) (max_request : Nat)
    (reqs : List FlashRequest) : List (Nat × Nat) → Except PyErr (List (Nat × Json))
  | [] => .ok []
  | (lo, hi) :: rest =>
    match callSeq w cm burst_job_tag max_request ((reqs.drop lo).take (hi - lo)) lo with
    | .error e => .error e
    | .ok xs =>
      match runBatches w cm burst_job_tag max_request reqs rest with
      | .error e => .error e
      | .ok ys => .ok (xs ++ ys)

/-- `OLIApi.process_request_list`: partition the request list into
batches and collect all results in order.  `call_async` is invoked with
its default `max_request=100`; the world `w i` is the network observed
by the call dispatched at original index `i`. -/
def process_request_list (w : Nat → CallWorld) (cm : CredentialManager)
    (reqs : List FlashRequest) (batch_size : Option Nat)
    (burst_job_tag : Option String) : Except PyErr (List (Nat × Json)) :=
  match batchPlan reqs.length batch_size with
  | .error e => .error e
  | .ok (bs, num_batches) =>
    runBatches w cm burst_job_tag 100 reqs (boundsLoop bs reqs.length num_batches 0)

/-- The deletion loop of `dbs_file_cleanup`: issue a DELETE for each
file ID in order and pass the response through
`_request_status_test(req, ["SUCCESS"])`, which raises on any failed
deletion, aborting the loop.  Returns the outcome and the list of file
IDs whose deletion was attempted. -/
def cleanupLoop (deleteResp : String → HttpResp) :
    List String → Except PyErr Unit × List String
  | [] => (.ok (), [])
  | id :: rest =>
    match _request_status_test (deleteResp id) (some ["SUCCESS"]) "dbs_file_cleanup" with
    | .error e => (.error e, [id])
    | .ok _ =>
      match cleanupLoop deleteResp rest with
      | (res, attempted) => (res, id :: attempted)

/-- `OLIApi.dbs_file_cleanup` on an explicit list of tracked file IDs
(the `__exit__` path): a single prompt answer `r` gates the whole batch
(`r` is the typed answer in interactive mode and the default `"y"`
otherwise); deletion proceeds when `r.lower() == "y"` or `r == ""`. -/
def dbs_file_cleanup (deleteResp : String → HttpResp)
    (dbs_file_ids : List String) (r : String) : Except PyErr Unit × List String :=
  if r.toLower = "y" ∨ r = "" then cleanupLoop deleteResp dbs_file_ids
  else (.ok (), [])

/-- A well-formed poll response as described by the spec's data model:
HTTP 200 with a `status` string and a `data` payload. -/
def pollResponse (st : String) (d : Json) : HttpResp :=
  ⟨200, .obj [("status", .str st), ("data", d)]⟩

/-- Substring test helpers over character lists, used to state facts
about error-message contents. -/
def charPrefix : List Char → List Char → Bool
  | [], _ => true
  | _ :: _, [] => false
  | c :: cs, d :: ds => c = d && charPrefix cs ds

/-- Whether `pat` occurs contiguously inside the second list. -/
def charSub (pat : List Char) : List Char → Bool
  | [] => charPrefix pat []
  | c :: rest => charPrefix pat (c :: rest) || charSub pat rest

lemma pollStep_pollResponse (st : String) (d : Json) (h : st ∈ pollStatuses) :
    pollStep (pollResponse st d) =
      if st ∈ ["PROCESSED", "FAILED"] ∧ d.truthy = true then .done d else .again := by
  simp only [pollStatuses, List.mem_cons, List.not_mem_nil, or_false] at h
  rcases h with rfl | rfl | rfl | rfl <;>
    simp [pollStep, pollResponse, _request_status_test, pollStatuses,
      Json.getKey, lookupField, Json.isStrIn]

lemma pollLoop_again_shift (g : Nat → HttpResp) :
    ∀ (k a fuel : Nat), (∀ j, a ≤ j → j < a + k → pollStep (g j) = .again) →
      k ≤ fuel → pollLoop g a fuel = pollLoop g (a + k) (fuel - k) := by
  intro k
  induction k with
  | zero => intro a fuel _ _; simp
  | succ k ih =>
    intro a fuel h hk
    obtain ⟨f, rfl⟩ : ∃ f, fuel = f + 1 := ⟨fuel - 1, by omega⟩
    have h0 : pollStep (g a) = .again := h a le_rfl (by omega)
    have step : pollLoop g a (f + 1) = pollLoop g (a + 1) f := by
      simp [pollLoop, h0]
    rw [step]
    have := ih (a + 1) f (fun j hj hj' => h j (by omega) (by omega)) (by omega)
    rw [this]
    congr 1 <;> omega

lemma pollLoop_all_again (g : Nat → HttpResp) :
    ∀ (fuel a : Nat), (∀ j, a ≤ j → j < a + fuel → pollStep (g j) = .again) →
      pollLoop g a fuel = (.error (.runtimeError "Poll limit exceeded."), a + fuel) := by
  intro fuel
  induction fuel with
  | zero => intro a _; simp [pollLoop]
  | succ f ih =>
    intro a h
    have h0 : pollStep (g a) = .again := h a le_rfl (by omega)
    have step : pollLoop g a (f + 1) = pollLoop g (a + 1) f := by
      simp [pollLoop, h0]
    rw [step, ih (a + 1) (fun j hj hj' => h j (by omega) (by omega))]
    congr 1
    omega

/-- C6: for every sequence of poll responses, `_poll_result_link`
stops and returns the response's `data` payload at the first response
whose status is PROCESSED or FAILED and whose payload is truthy;
earlier responses — including PROCESSED/FAILED responses with an empty
payload — do not terminate polling.  The source spells the in-flight
statuses "IN QUEUE"/"IN PROGRESS" (with a space); exactly `i + 1`
fetches are issued. -/
theorem poll_returns_first_qualifying_terminal
    (f : Nat → String × Json) (max_request i : Nat)
    (hwf : ∀ j, j ≤ i → (f j).1 ∈ pollStatuses)
    (hi : i < max_request)
    (hterm : (f i).1 ∈ ["PROCESSED", "FAILED"] ∧ ((f i).2).truthy = true)
    (hfirst : ∀ j, j < i →
      ¬((f j).1 ∈ ["PROCESSED", "FAILED"] ∧ ((f j).2).truthy = true)) :
    _poll_result_link (fun j => pollResponse (f j).1 (f j).2) max_request =
      (.ok (f i).2, i + 1) := by
  have hagain : ∀ j, 0 ≤ j → j < 0 + i →
      pollStep (pollResponse (f j).1 (f j).2) = .again := by
    intro j _ hj
    rw [pollStep_pollResponse _ _ (hwf j (by omega))]
    exact if_neg (hfirst j (by omega))
  unfold _poll_result_link
  rw [pollLoop_again_shift _ i 0 max_request hagain (by omega)]
  obtain ⟨m, hm⟩ : ∃ m, max_request - i = m + 1 := ⟨max_request - i - 1, by omega⟩
  rw [hm]
  simp only [Nat.zero_add]
  have hstep : pollStep (pollResponse (f i).1 (f i).2) = .done ((f i).2) := by
    rw [pollStep_pollResponse _ _ (hwf i le_rfl)]
    exact if_pos hterm
  simp [pollLoop, hstep]

/-- The poll trace of the C6 example: two IN PROGRESS responses, then
PROCESSED with payload `{"x": 1}`. -/
def pollTraceC6 : Nat → String × Json := fun j =>
  if 2 ≤ j then ("PROCESSED", .obj [("x", .num 1)]) else ("IN PROGRESS", .null)

theorem poll_returns_first_qualifying_terminal_witness :
    _poll_result_link (fun j => pollResponse (pollTraceC6 j).1 (pollTraceC6 j).2) 5 =
      (.ok (.obj [("x", .num 1)]), 3) :=
  poll_returns_first_qualifying_terminal pollTraceC6 5 2
    (by decide) (by decide) (by decide) (by decide)

/-- C7: if none of the first `max_request` poll responses is a
PROCESSED/FAILED response carrying a truthy payload, `_poll_result_link`
performs exactly `max_request` fetches, no more, and then fails with
`RuntimeError("Poll limit exceeded.")` (the spec's PollTimeoutError). -/
theorem poll_exhausts_budget (f : Nat → String × Json) (max_request : Nat)
    (hwf : ∀ j, j < max_request → (f j).1 ∈ pollStatuses)
    (hnone : ∀ j, j < max_request →
      ¬((f j).1 ∈ ["PROCESSED", "FAILED"] ∧ ((f j).2).truthy = true)) :
    _poll_result_link (fun j => pollResponse (f j).1 (f j).2) max_request =
      (.error (.runtimeError "Poll limit exceeded."), max_request) := by
  have hagain : ∀ j, 0 ≤ j → j < 0 + max_request →
      pollStep (pollResponse (f j).1 (f j).2) = .again := by
    intro j _ hj
    rw [pollStep_pollResponse _ _ (hwf j (by omega))]
    exact if_neg (hnone j (by omega))
  unfold _poll_result_link
  rw [pollLoop_all_again _ max_request 0 hagain]
  simp

theorem poll_exhausts_budget_witness :
    _poll_result_link (fun j =>
        pollResponse ((fun (_ : Nat) => ("IN QUEUE", Json.null)) j).1
          ((fun (_ : Nat) => ("IN QUEUE", Json.null)) j).2) 3 =
      (.error (.runtimeError "Poll limit exceeded."), 3) :=
  poll_exhausts_budget (fun _ => ("IN QUEUE", Json.null)) 3 (by decide) (by decide)

/-- A poll response the status test rejects: non-200 HTTP status, or a
body without a `status` field, or a `status` value outside the known
set. -/
def pollRejects (r : HttpResp) : Prop :=
  r.status_code ≠ 200 ∨ r.body.getKey "status" = none ∨
    ∃ v, r.body.getKey "status" = some v ∧ v.isStrIn pollStatuses = false

lemma status_test_rejects (r : HttpResp) (fn : String) (h : pollRejects r) :
    _request_status_test r (some pollStatuses) fn =
      .error (.statusTestFailure fn r.body) := by
  rcases h with h | h | ⟨v, hv, hvs⟩
  · simp [_request_status_test, h]
  · by_cases hc : r.status_code = 200 <;>
      simp [_request_status_test, hc, h, pollStatuses]
  · simp only [pollStatuses] at hvs
    by_cases hc : r.status_code = 200 <;>
      simp [_request_status_test, hc, hv, hvs, pollStatuses]

lemma pollStep_fail_of_rejects (r : HttpResp) (h : pollRejects r) :
    pollStep r = .fail (.statusTestFailure "_poll_result_link" r.body) := by
  simp [pollStep, status_test_rejects r _ h]

lemma pollStep_again_of_in_progress (r : HttpResp) (hc : r.status_code = 200)
    (hs : ∃ s, r.body.getKey "status" = some (.str s) ∧
      s ∈ ["IN QUEUE", "IN PROGRESS"]) :
    pollStep r = .again := by
  obtain ⟨s, hg, hmem⟩ := hs
  simp only [List.mem_cons, List.not_mem_nil, or_false] at hmem
  rcases hmem with rfl | rfl <;>
    simp [pollStep, _request_status_test, hc, hg, pollStatuses, Json.isStrIn]

/-- C9: a poll response with a non-200 HTTP status, a body without a
`status` field, or a `status` value outside the known set makes
`_poll_result_link` fail immediately with the status-test
`RuntimeError` (the spec's UnexpectedResponseError): exactly `i + 1`
fetches are issued and no further poll attempt is made; only the
earlier not-yet-complete responses led to a retry of the fetch. -/
theorem poll_rejects_invalid_response_immediately
    (g : Nat → HttpResp) (max_request i : Nat) (hi : i < max_request)
    (hbad : pollRejects (g i))
    (hbefore : ∀ j, j < i → (g j).status_code = 200 ∧
      ∃ s, (g j).body.getKey "status" = some (.str s) ∧
        s ∈ ["IN QUEUE", "IN PROGRESS"]) :
    _poll_result_link g max_request =
      (.error (.statusTestFailure "_poll_result_link" (g i).body), i + 1) := by
  have hagain : ∀ j, 0 ≤ j → j < 0 + i → pollStep (g j) = .again := by
    intro j _ hj
    exact pollStep_again_of_in_progress (g j) (hbefore j (by omega)).1
      (hbefore j (by omega)).2
  unfold _poll_result_link
  rw [pollLoop_again_shift _ i 0 max_request hagain (by omega)]
  obtain ⟨m, hm⟩ : ∃ m, max_request - i = m + 1 := ⟨max_request - i - 1, by omega⟩
  rw [hm]
  simp only [Nat.zero_add]
  have hstep : pollStep (g i) =
      .fail (.statusTestFailure "_poll_result_link" (g i).body) :=
    pollStep_fail_of_rejects _ hbad
  simp [pollLoop, hstep]

/-- The poll trace of the C9 witness: one IN QUEUE response, then an
HTTP 500 response. -/
def pollTraceC9 : Nat → HttpResp := fun j =>
  if j = 1 then ⟨500, .obj []⟩ else pollResponse "IN QUEUE" (.obj [])

theorem poll_rejects_invalid_response_immediately_witness :
    _poll_result_link pollTraceC9 5 =
      (.error (.statusTestFailure "_poll_result_link" (.obj [])), 2) :=
  poll_rejects_invalid_response_immediately pollTraceC9 5 1 (by decide)
    (Or.inl (by decide))
    (by
      intro j hj
      interval_cases j
      exact ⟨rfl, "IN QUEUE", rfl, by decide⟩)

/-- A concrete credential manager used by concrete instantiations. -/
def cm₀ : CredentialManager := ⟨[("authorization", "token")], "E"⟩

/-- A concrete accepted submission response whose `data` object
carries both the `status` subfield (required by `_get_result_link`'s
nested gate) and a results link. -/
def submitOkResp : HttpResp :=
  ⟨200, .obj [("status", .str "SUCCESS"),
    ("data", .obj [("status", .str "IN PROGRESS"), ("resultsLink", .str "L")])]⟩

/-- A concrete call world whose first poll response is terminal. -/
def w₀ : CallWorld :=
  ⟨submitOkResp, fun _ => pollResponse "PROCESSED" (.obj [("x", .num 1)])⟩

/-- C3: `_get_flash_mode` classifies the flash method into two fixed
sets.  Read-style methods yield verb GET and URL
`{engine_url}/file/{id}/{method}`; compute-style methods yield verb
POST, URL `{engine_url}/flash/{id}/{method}`, headers layering
`Content-Type: application/json` onto the base set, and the query
suffix `?burst=watertap_burst_{tag}` exactly when a burst tag is
supplied. -/
theorem flash_mode_classification (cm : CredentialManager) (id : String)
    (hid : id ≠ "") (m : String) (tag : Option String) :
    (m ∈ ["corrosion-contact-surface", "chemistry-info"] →
      _get_flash_mode cm id m tag =
        .ok ("GET", cm.engine_url ++ "/file/" ++ id ++ "/" ++ m, cm.headers)) ∧
    (m ∈ ["isothermal", "corrosion-rates", "wateranalysis"] →
      _get_flash_mode cm id m tag =
        .ok ("POST",
          (match tag with
            | some t => cm.engine_url ++ "/flash/" ++ id ++ "/" ++ m
                ++ "?" ++ "burst=" ++ "watertap_burst" ++ "_" ++ t
            | none => cm.engine_url ++ "/flash/" ++ id ++ "/" ++ m),
          update_headers cm [("Content-Type", "application/json")]) ∧
      ("Content-Type", "application/json") ∈
        update_headers cm [("Content-Type", "application/json")]) := by
  constructor
  · intro hm
    simp only [List.mem_cons, List.not_mem_nil, or_false] at hm
    rcases hm with rfl | rfl <;> simp [_get_flash_mode, hid]
  · intro hm
    simp only [List.mem_cons, List.not_mem_nil, or_false] at hm
    have hmem : ("Content-Type", "application/json") ∈
        update_headers cm [("Content-Type", "application/json")] := by
      simp [update_headers]
    rcases hm with rfl | rfl | rfl <;>
      exact ⟨by cases tag <;> simp [_get_flash_mode, hid], hmem⟩

theorem flash_mode_classification_witness :
    _get_flash_mode cm₀ "abc" "chemistry-info" none =
      .ok ("GET", "E/file/abc/chemistry-info", cm₀.headers) ∧
    (_get_flash_mode cm₀ "abc" "wateranalysis" (some "42") =
      .ok ("POST", "E/flash/abc/wateranalysis?burst=watertap_burst_42",
        update_headers cm₀ [("Content-Type", "application/json")]) ∧
      ("Content-Type", "application/json") ∈
        update_headers cm₀ [("Content-Type", "application/json")]) ∧
    charSub "/file/abc/chemistry-info".toList "E/file/abc/chemistry-info".toList = true ∧
    charSub "burst=watertap_burst_42".toList
      "E/flash/abc/wateranalysis?burst=watertap_burst_42".toList = true :=
  ⟨(flash_mode_classification cm₀ "abc" (by decide) "chemistry-info" none).1
      (by decide),
   (flash_mode_classification cm₀ "abc" (by decide) "wateranalysis" (some "42")).2
      (by decide),
   by decide, by decide⟩

/-- The exact `RuntimeError` message raised by `_get_flash_mode` for an
unsupported method named `bogus-method`: the second half of the message
is not an f-string in the source, so the brace expression appears
literally instead of the joined method names. -/
def unsupportedFlashMsg : String :=
  " Unexpected value for flash_method: bogus-method. Valid values: \x7b\x27, \x27.join(valid_flashes)\x7d."

/-- C4: at the failing input `flash_method="bogus-method"`,
`_get_flash_mode` raises with a message that does not list any of the
five valid method names, but instead contains the un-interpolated
text `join(valid_flashes)`: the source's second message string lacks
the `f` prefix. -/
theorem flash_mode_unsupported_message_not_listing :
    _get_flash_mode cm₀ "abc" "bogus-method" none =
      .error (.runtimeError unsupportedFlashMsg) ∧
    charSub "isothermal".toList unsupportedFlashMsg.toList = false ∧
    charSub "chemistry-info".toList unsupportedFlashMsg.toList = false ∧
    charSub "corrosion-rates".toList unsupportedFlashMsg.toList = false ∧
    charSub "wateranalysis".toList unsupportedFlashMsg.toList = false ∧
    charSub "corrosion-contact-surface".toList unsupportedFlashMsg.toList = false ∧
    charSub "join(valid_flashes)".toList unsupportedFlashMsg.toList = true := by
  refine ⟨rfl, ?_, ?_, ?_, ?_, ?_, ?_⟩ <;> decide

/-- C5: an empty flash method or an empty DBS file ID makes the call
fail with `IOError` (the spec's ConfigurationError) before any network
call is made: zero HTTP requests are issued and the error surfaces
immediately, with no retry. -/
theorem call_async_empty_identifiers_no_network
    (w : CallWorld) (cm : CredentialManager) (fm id : String) (params : Json)
    (burst : Option String) (index max_request : Nat)
    (h : fm = "" ∨ id = "") :
    call_async w cm fm id params burst index max_request =
      (.error (.ioError (if fm = "" then "Specify a flash method to run."
        else "Specify a DBS file ID to flash.")), 0) := by
  by_cases hf : fm = ""
  · simp [call_async, _get_flash_mode, hf]
  · have hid : id = "" := h.resolve_left hf
    simp [call_async, _get_flash_mode, hf, hid]

theorem call_async_empty_identifiers_no_network_witness :
    call_async w₀ cm₀ "" "abc" .null none 0 100 =
      (.error (.ioError "Specify a flash method to run."), 0) :=
  call_async_empty_identifiers_no_network w₀ cm₀ "" "abc" .null none 0 100
    (Or.inl rfl)

lemma get_result_link_missing (b : Json)
    (hdata : b.getKey "data" = none ∨
      ∃ fields, b.getKey "data" = some (.obj fields) ∧
        lookupField fields "resultsLink" = none) :
    _get_result_link b = .error (.nameError "req") := by
  rcases hdata with h | ⟨fields, h, hrl⟩
  · simp [_get_result_link, h, Json.truthy]
  · simp only [_get_result_link, h]
    simp only [Json.getKey, hrl]
    cases hst : lookupField fields "status" with
    | none => simp [Json.truthy]
    | some st =>
      cases hs : st.isStrIn ["IN QUEUE", "IN PROGRESS"] <;>
        simp [Json.truthy, hs, hrl]

/-- C10: a submission response accepted by the status test (HTTP 200,
top-level status `SUCCESS`) whose body lacks a `data` key, or whose
`data` object lacks a `resultsLink` key, does not hand an empty link to
the caller: `_get_result_link`'s empty-link warning line references the
out-of-scope name `req`, so `call_async` terminates with `NameError`
after the single submission request, before any poll fetch is issued. -/
theorem call_async_missing_results_link
    (w : CallWorld) (cm : CredentialManager) (fm id : String) (params : Json)
    (burst : Option String) (index max_request : Nat)
    (hdisp : ∃ mode url hs, _get_flash_mode cm id fm burst = .ok (mode, url, hs))
    (hcode : w.submitResp.status_code = 200)
    (hstatus : w.submitResp.body.getKey "status" = some (.str "SUCCESS"))
    (hdata : w.submitResp.body.getKey "data" = none ∨
      ∃ fields, w.submitResp.body.getKey "data" = some (.obj fields) ∧
        lookupField fields "resultsLink" = none) :
    call_async w cm fm id params burst index max_request =
      (.error (.nameError "req"), 1) := by
  obtain ⟨mode, url, hs, hd⟩ := hdisp
  have htest : _request_status_test w.submitResp (some ["SUCCESS"]) "call_async" =
      .ok w.submitResp.body := by
    simp [_request_status_test, hcode, hstatus, Json.isStrIn]
  simp [call_async, hd, htest, get_result_link_missing _ hdata]

/-- A call world whose accepted submission response has no `data` key. -/
def w₁ : CallWorld :=
  ⟨⟨200, .obj [("status", .str "SUCCESS")]⟩,
   fun _ => pollResponse "PROCESSED" (.obj [("x", .num 1)])⟩

theorem call_async_missing_results_link_witness :
    call_async w₁ cm₀ "isothermal" "abc" .null none 0 100 =
      (.error (.nameError "req"), 1) :=
  call_async_missing_results_link w₁ cm₀ "isothermal" "abc" .null none 0 100
    ⟨"POST", "E/flash/abc/isothermal",
      update_headers cm₀ [("Content-Type", "application/json")], rfl⟩
    rfl rfl (Or.inl rfl)

lemma status_test_rejects_general (r : HttpResp) (keys : List String) (fn : String)
    (hne : keys.isEmpty = false)
    (h : r.status_code ≠ 200 ∨ r.body.getKey "status" = none ∨
      ∃ v, r.body.getKey "status" = some v ∧ v.isStrIn keys = false) :
    _request_status_test r (some keys) fn =
      .error (.statusTestFailure fn r.body) := by
  rcases h with h | h | ⟨v, hv, hvs⟩
  · simp [_request_status_test, h]
  · by_cases hc : r.status_code = 200 <;>
      simp [_request_status_test, hc, h, hne]
  · by_cases hc : r.status_code = 200 <;>
      simp [_request_status_test, hc, hv, hvs, hne]

lemma cleanupLoop_all_ok (deleteResp : String → HttpResp) :
    ∀ ids : List String,
      (∀ id ∈ ids, (deleteResp id).status_code = 200 ∧
        (deleteResp id).body.getKey "status" = some (.str "SUCCESS")) →
      cleanupLoop deleteResp ids = (.ok (), ids) := by
  intro ids
  induction ids with
  | nil => intro _; rfl
  | cons id rest ih =>
    intro h
    have h1 := (h id (List.mem_cons_self id rest)).1
    have h2 := (h id (List.mem_cons_self id rest)).2
    have htest : _request_status_test (deleteResp id) (some ["SUCCESS"])
        "dbs_file_cleanup" = .ok (deleteResp id).body := by
      simp [_request_status_test, h1, h2, Json.isStrIn]
    have hrest := ih (fun x hx => h x (List.mem_cons_of_mem id hx))
    simp [cleanupLoop, htest, hrest]

lemma cleanupLoop_aborts (deleteResp : String → HttpResp) :
    ∀ (pre : List String) (bad : String) (post : List String),
      (∀ id ∈ pre, (deleteResp id).status_code = 200 ∧
        (deleteResp id).body.getKey "status" = some (.str "SUCCESS")) →
      ((deleteResp bad).status_code ≠ 200 ∨
        (deleteResp bad).body.getKey "status" = none ∨
        ∃ v, (deleteResp bad).body.getKey "status" = some v ∧
          v.isStrIn ["SUCCESS"] = false) →
      cleanupLoop deleteResp (pre ++ bad :: post) =
        (.error (.statusTestFailure "dbs_file_cleanup" (deleteResp bad).body),
          pre ++ [bad]) := by
  intro pre
  induction pre with
  | nil =>
    intro bad post _ hbad
    have htest := status_test_rejects_general (deleteResp bad) ["SUCCESS"]
      "dbs_file_cleanup" rfl hbad
    simp [cleanupLoop, htest]
  | cons id rest ih =>
    intro bad post hok hbad
    have h1 := (hok id (List.mem_cons_self id rest)).1
    have h2 := (hok id (List.mem_cons_self id rest)).2
    have htest : _request_status_test (deleteResp id) (some ["SUCCESS"])
        "dbs_file_cleanup" = .ok (deleteResp id).body := by
      simp [_request_status_test, h1, h2, Json.isStrIn]
    have hrest := ih bad post (fun x hx => hok x (List.mem_cons_of_mem id hx)) hbad
    simp [cleanupLoop, htest, hrest]

/-- C8 (amended): with the batch deletion confirmed (answer `y` or
empty, the non-interactive default being `y`), teardown attempts
deletion of the tracked file IDs in order; when every deletion response
is HTTP 200 with status `SUCCESS` it attempts every one of the N IDs
exactly once and completes without raising, but a deletion rejected by
the status test raises the status-test `RuntimeError` from teardown and
the remaining IDs are not attempted. -/
theorem cleanup_attempts_in_order (deleteResp : String → HttpResp) (r : String)
    (hr : r.toLower = "y" ∨ r = "") :
    (∀ ids : List String,
      (∀ id ∈ ids, (deleteResp id).status_code = 200 ∧
        (deleteResp id).body.getKey "status" = some (.str "SUCCESS")) →
      dbs_file_cleanup deleteResp ids r = (.ok (), ids)) ∧
    (∀ (pre : List String) (bad : String) (post : List String),
      (∀ id ∈ pre, (deleteResp id).status_code = 200 ∧
        (deleteResp id).body.getKey "status" = some (.str "SUCCESS")) →
      ((deleteResp bad).status_code ≠ 200 ∨
        (deleteResp bad).body.getKey "status" = none ∨
        ∃ v, (deleteResp bad).body.getKey "status" = some v ∧
          v.isStrIn ["SUCCESS"] = false) →
      dbs_file_cleanup deleteResp (pre ++ bad :: post) r =
        (.error (.statusTestFailure "dbs_file_cleanup" (deleteResp bad).body),
          pre ++ [bad])) := by
  constructor
  · intro ids hok
    rw [dbs_file_cleanup, if_pos hr]
    exact cleanupLoop_all_ok deleteResp ids hok
  · intro pre bad post hok hbad
    rw [dbs_file_cleanup, if_pos hr]
    exact cleanupLoop_aborts deleteResp pre bad post hok hbad

/-- The deletion endpoint of the C8 counterexample: deleting `b` fails
with HTTP 500, the others succeed. -/
def deleteRespC8 : String → HttpResp := fun id =>
  if id = "b" then ⟨500, .obj []⟩ else ⟨200, .obj [("status", .str "SUCCESS")]⟩

/-- C8 (counterexample): with 3 tracked IDs, the batch deletion
confirmed, and a deletion failure on the second, teardown raises the
status-test `RuntimeError` and the third deletion is never attempted —
the attempted list is `["a", "b"]`, not `["a", "b", "c"]`, and the
outcome is an error, not a completed cleanup. -/
theorem cleanup_aborts_on_failed_deletion :
    dbs_file_cleanup deleteRespC8 ["a", "b", "c"] "" =
      (.error (.statusTestFailure "dbs_file_cleanup" (.obj [])), ["a", "b"]) := by
  rw [dbs_file_cleanup, if_pos (Or.inr rfl)]
  rfl

/-- All deletions succeed in the C8 witness world. -/
def deleteRespOk : String → HttpResp :=
  fun _ => ⟨200, .obj [("status", .str "SUCCESS")]⟩

theorem cleanup_attempts_in_order_witness :
    dbs_file_cleanup deleteRespOk ["a", "b", "c"] "" = (.ok (), ["a", "b", "c"]) :=
  (cleanup_attempts_in_order deleteRespOk "" (Or.inr rfl)).1 ["a", "b", "c"]
    (fun _ _ => ⟨rfl, rfl⟩)

lemma lookup_setField (fields : List (String × Json)) (k : String) (v : Json) :
    lookupField (setField fields k v) k = some v := by
  induction fields with
  | nil => simp [setField, lookupField]
  | cons kv rest ih =>
    obtain ⟨k', v'⟩ := kv
    by_cases hk : k' = k
    · simp [setField, hk, lookupField]
    · simp [setField, hk, lookupField, ih]

lemma setKey_getKey (j : Json) (k : String) (v : Json) (j' : Json)
    (h : j.setKey k v = .ok j') : j'.getKey k = some v := by
  cases j <;> simp [Json.setKey] at h
  subst h
  exact lookup_setField _ k v

lemma call_async_ok_shape (w : CallWorld) (cm : CredentialManager)
    (fm id : String) (params : Json) (burst : Option String) (idx maxr : Nat)
    (p : Nat × Json)
    (h : (call_async w cm fm id params burst idx maxr).1 = .ok p) :
    p.1 = idx ∧ p.2.getKey "submitted_requests" = some (submittedOf fm id params) := by
  unfold call_async at h
  split at h
  · simp at h
  · split at h
    · simp at h
    · split at h
      · simp at h
      · split at h
        · simp at h
        · split at h
          · simp at h
          · rename_i result n hpoll result' hset
            simp only [Except.ok.injEq] at h
            obtain rfl : p = (idx, result') := h.symm
            exact ⟨rfl, setKey_getKey _ _ _ _ hset⟩

lemma callSeq_append (w : Nat → CallWorld) (cm : CredentialManager)
    (burst : Option String) (maxr : Nat) :
    ∀ (l₁ l₂ : List FlashRequest) (s : Nat),
      callSeq w cm burst maxr (l₁ ++ l₂) s =
        match callSeq w cm burst maxr l₁ s with
        | .error e => .error e
        | .ok xs =>
          match callSeq w cm burst maxr l₂ (s + l₁.length) with
          | .error e => .error e
          | .ok ys => .ok (xs ++ ys) := by
  intro l₁
  induction l₁ with
  | nil =>
    intro l₂ s
    cases h : callSeq w cm burst maxr l₂ s <;>
      simp [callSeq, h]
  | cons r rest ih =>
    intro l₂ s
    simp only [List.cons_append, callSeq]
    cases hc : (call_async (w s) cm r.flash_method r.dbs_file_id r.input_params
        burst s maxr).1 with
    | error e => rfl
    | ok p =>
      simp only [List.append_eq]
      rw [ih l₂ (s + 1)]
      have harith : s + 1 + rest.length = s + (rest.length + 1) := by omega
      rw [harith]
      cases h1 : callSeq w cm burst maxr rest (s + 1) with
      | error e => simp [List.length_cons]
      | ok xs =>
        cases h2 : callSeq w cm burst maxr l₂ (s + (rest.length + 1)) with
        | error e => simp [h2]
        | ok ys => simp [h2]

lemma callSeq_ok_spec (w : Nat → CallWorld) (cm : CredentialManager)
    (burst : Option String) (maxr : Nat) :
    ∀ (l : List FlashRequest) (s : Nat),
      (∀ i r, l[i]? = some r →
        ∃ p, (call_async (w (s + i)) cm r.flash_method r.dbs_file_id
          r.input_params burst (s + i) maxr).1 = .ok p) →
      ∃ out, callSeq w cm burst maxr l s = .ok out ∧ out.length = l.length ∧
        ∀ i r, l[i]? = some r → ∃ res, out[i]? = some (s + i, res) ∧
          res.getKey "submitted_requests" =
            some (submittedOf r.flash_method r.dbs_file_id r.input_params) := by
  intro l
  induction l with
  | nil =>
    intro s _
    exact ⟨[], rfl, rfl, by intro i r hr; simp at hr⟩
  | cons r0 rest ih =>
    intro s hok
    obtain ⟨p, hp⟩ := hok 0 r0 (by simp)
    rw [Nat.add_zero] at hp
    obtain ⟨hp1, hp2⟩ := call_async_ok_shape _ _ _ _ _ _ _ _ p hp
    obtain ⟨out, hout, hlen, hspec⟩ := ih (s + 1) (by
      intro i rr hr
      have := hok (i + 1) rr (by simpa using hr)
      rwa [show s + (i + 1) = s + 1 + i by omega] at this)
    refine ⟨p :: out, ?_, ?_, ?_⟩
    · simp [callSeq, hp, hout]
    · simp [hlen]
    · intro i rr hr
      cases i with
      | zero =>
        obtain rfl : r0 = rr := by simpa using hr
        refine ⟨p.2, ?_, hp2⟩
        have : p = (s, p.2) := by
          rw [← hp1]
        simp [← this]
      | succ j =>
        obtain ⟨res, hres, hkey⟩ := hspec j rr (by simpa using hr)
        refine ⟨res, ?_, hkey⟩
        rw [show s + (j + 1) = s + 1 + j by omega]
        simpa using hres

lemma runBatches_boundsLoop (w : Nat → CallWorld) (cm : CredentialManager)
    (burst : Option String) (maxr : Nat) (reqs : List FlashRequest) (bs : Nat)
    (hbs : 1 ≤ bs) :
    ∀ (fuel k : Nat), 1 ≤ fuel → reqs.length ≤ (k + fuel) * bs →
      runBatches w cm burst maxr reqs (boundsLoop bs reqs.length fuel k) =
        callSeq w cm burst maxr (reqs.drop (k * bs)) (k * bs) := by
  intro fuel
  induction fuel with
  | zero => intro k h0 _; omega
  | succ f ih =>
    intro k _ hcov
    have hsm : (k + 1) * bs = k * bs + bs := Nat.succ_mul k bs
    by_cases hend : reqs.length ≤ (k + 1) * bs
    · rw [boundsLoop, if_pos hend]
      rw [runBatches]
      have hsub : (k + 1) * bs - k * bs = bs := by omega
      rw [hsub]
      have hslice : (reqs.drop (k * bs)).take bs = reqs.drop (k * bs) := by
        apply List.take_of_length_le
        rw [List.length_drop]
        omega
      rw [hslice]
      cases hcall : callSeq w cm burst maxr (reqs.drop (k * bs)) (k * bs) with
      | error e => simp [hcall]
      | ok xs => simp [hcall, runBatches]
    · rw [boundsLoop, if_neg hend]
      have hlt : (k + 1) * bs < reqs.length := Nat.lt_of_not_le hend
      have hf : 1 ≤ f := by
        rcases Nat.eq_zero_or_pos f with rfl | h
        · exfalso
          have h2 : reqs.length ≤ (k + 1) * bs := by simpa using hcov
          exact hend h2
        · exact h
      have hcov' : reqs.length ≤ ((k + 1) + f) * bs := by
        have harr : (k + (f + 1)) = ((k + 1) + f) := by omega
        rwa [harr] at hcov
      have ih' := ih (k + 1) hf hcov'
      have hsub : (k + 1) * bs - k * bs = bs := by omega
      have hsplit : reqs.drop (k * bs) =
          (reqs.drop (k * bs)).take bs ++ reqs.drop ((k + 1) * bs) := by
        conv_lhs => rw [← List.take_append_drop bs (reqs.drop (k * bs))]
        congr 1
        rw [List.drop_drop, hsm]
      have hlen_take : ((reqs.drop (k * bs)).take bs).length = bs := by
        rw [List.length_take, List.length_drop]
        omega
      rw [runBatches, hsub, ih']
      conv_rhs => rw [hsplit]
      rw [callSeq_append, hlen_take, hsm]

lemma single_batch_eq (w : Nat → CallWorld) (cm : CredentialManager)
    (burst : Option String) (maxr : Nat) (reqs : List FlashRequest) :
    runBatches w cm burst maxr reqs (boundsLoop reqs.length reqs.length 1 0) =
      callSeq w cm burst maxr reqs 0 := by
  rcases Nat.eq_zero_or_pos reqs.length with h | h
  · obtain rfl : reqs = [] := List.length_eq_zero.mp h
    rfl
  · have := runBatches_boundsLoop w cm burst maxr reqs reqs.length h 1 0
      le_rfl (by simp)
    simpa using this

lemma process_eq_callSeq (w : Nat → CallWorld) (cm : CredentialManager)
    (reqs : List FlashRequest) (bs? : Option Nat) (burst : Option String)
    (hbs : bs? = none ∨ ∃ b, bs? = some b ∧ 1 ≤ b ∧ b ≠ reqs.length) :
    process_request_list w cm reqs bs? burst = callSeq w cm burst 100 reqs 0 := by
  rcases hbs with rfl | ⟨b, rfl, hb1, hbne⟩
  · have hplan : batchPlan reqs.length none = .ok (reqs.length, 1) := by
      simp [batchPlan]
    simp only [process_request_list, hplan]
    exact single_batch_eq w cm burst 100 reqs
  · by_cases hlt : reqs.length < b
    · have hplan : batchPlan reqs.length (some b) = .ok (reqs.length, 1) := by
        simp [batchPlan, hlt]
      simp only [process_request_list, hplan]
      exact single_batch_eq w cm burst 100 reqs
    · have hblt : b < reqs.length := by omega
      have hcond : ¬(b = 0 ∨ reqs.length < b) := by omega
      have hdiv : 1 ≤ reqs.length / b := (Nat.one_le_div_iff (by omega)).mpr (by omega)
      have hnb : 1 < reqs.length / b + (if reqs.length % b ≠ 0 then 1 else 0) := by
        by_cases hm : reqs.length % b = 0
        · simp only [hm, ne_eq, not_true_eq_false, if_false]
          rcases Nat.lt_or_ge 1 (reqs.length / b) with h | h
          · exact h
          · exfalso
            have hq1 : reqs.length / b = 1 := by omega
            have hdm := Nat.div_add_mod reqs.length b
            rw [hq1, hm] at hdm
            simp at hdm
            omega
        · simp only [hm, ne_eq, not_false_eq_true, if_true]
          omega
      have hcover : reqs.length ≤
          (reqs.length / b + (if reqs.length % b ≠ 0 then 1 else 0)) * b := by
        have hdm := Nat.div_add_mod reqs.length b
        by_cases hm : reqs.length % b = 0
        · simp only [hm, ne_eq, not_true_eq_false, if_false]
          rw [hm, Nat.add_zero] at hdm
          rw [Nat.add_zero, Nat.mul_comm]
          exact Nat.le_of_eq hdm.symm
        · simp only [hm, ne_eq, not_false_eq_true, if_true]
          have hb0 : 0 < b := by omega
          refine Nat.le_of_lt ?_
          calc reqs.length = b * (reqs.length / b) + reqs.length % b :=
                (Nat.div_add_mod _ _).symm
            _ < b * (reqs.length / b) + b :=
                Nat.add_lt_add_left (Nat.mod_lt _ hb0) _
            _ = (reqs.length / b) * b + b := by rw [Nat.mul_comm]
            _ = (reqs.length / b + 1) * b := (Nat.succ_mul _ _).symm
      have hplan : batchPlan reqs.length (some b) =
          .ok (b, reqs.length / b + (if reqs.length % b ≠ 0 then 1 else 0)) := by
        simp only [batchPlan, Option.getD_some]
        rw [if_neg hcond, if_pos hnb]
      simp only [process_request_list, hplan]
      have := runBatches_boundsLoop w cm burst 100 reqs b (by omega)
        (reqs.length / b + (if reqs.length % b ≠ 0 then 1 else 0)) 0 (by omega)
        (by simpa using hcover)
      simpa using this

/-- C1 (amended): for every non-empty request list of length N, every
burst tag, every batch size that is unset or satisfies `1 ≤ B` and
`B ≠ N`, and every network in which each dispatched call succeeds,
`process_request_list` returns exactly N results; the i-th result is
keyed by index i and its `submitted_requests` field equals the
`flash_method`, `dbs_file_id` and `input_params` of `requests[i]` —
independent of completion order, since `asyncio.gather` collects
results positionally (modelled by in-order collection).  The case
`B = N` is excluded: there the source raises `UnboundLocalError` (see
the counterexample). -/
theorem process_request_list_ordered_results
    (w : Nat → CallWorld) (cm : CredentialManager) (reqs : List FlashRequest)
    (bs? : Option Nat) (burst : Option String)
    (_hne : reqs ≠ [])
    (hbs : bs? = none ∨ ∃ b, bs? = some b ∧ 1 ≤ b ∧ b ≠ reqs.length)
    (hok : ∀ (i : Nat) (r : FlashRequest), reqs[i]? = some r →
      ∃ p, (call_async (w i) cm r.flash_method r.dbs_file_id r.input_params
        burst i 100).1 = .ok p) :
    ∃ out : List (Nat × Json), process_request_list w cm reqs bs? burst = .ok out ∧
      out.length = reqs.length ∧
      ∀ (i : Nat) (r : FlashRequest), reqs[i]? = some r →
        ∃ res : Json, out[i]? = some (i, res) ∧
          res.getKey "submitted_requests" =
            some (submittedOf r.flash_method r.dbs_file_id r.input_params) := by
  rw [process_eq_callSeq w cm reqs bs? burst hbs]
  obtain ⟨out, h1, h2, h3⟩ := callSeq_ok_spec w cm burst 100 reqs 0 (by
    intro i r hr
    simpa using hok i r hr)
  refine ⟨out, h1, h2, ?_⟩
  intro i r hr
  simpa using h3 i r hr

/-- A concrete flash request used by concrete orchestration runs. -/
def req₀ : FlashRequest := ⟨"wateranalysis", "abc", .null⟩

theorem process_request_list_ordered_results_witness :
    ∃ out : List (Nat × Json),
      process_request_list (fun _ => w₀) cm₀ [req₀] none none = .ok out ∧
      out.length = [req₀].length ∧
      ∀ (i : Nat) (r : FlashRequest), [req₀][i]? = some r →
        ∃ res : Json, out[i]? = some (i, res) ∧
          res.getKey "submitted_requests" =
            some (submittedOf r.flash_method r.dbs_file_id r.input_params) :=
  process_request_list_ordered_results (fun _ => w₀) cm₀ [req₀] none none
    (by simp) (Or.inl rfl)
    (by
      intro i r hr
      cases i with
      | zero =>
        obtain rfl : req₀ = r := by simpa using hr
        exact ⟨_, rfl⟩
      | succ j => simp at hr)

/-- C1 (counterexample): at the concrete input of two requests with
`batch_size = 2` (a batch size equal to the request count),
`process_request_list` does not return two results as the claim
states: `batch_generator` assigns its log label only when
`num_batches > 1` or in the unset/oversized branch, so the log
f-string reads the unassigned local `label` and the run raises
`UnboundLocalError` before any call is dispatched. -/
theorem process_request_list_crashes_at_full_batch_size :
    process_request_list (fun _ => w₀) cm₀ [req₀, req₀] (some 2) none =
      .error (.unboundLocalError "label") := rfl

/-- C2: at the failing input of three requests with `batch_size = 3`
(so `B = N`, which the claim includes in "B ≥ N"), the run does not
behave like the unset-batch-size run, which succeeds on the same input
with three index-keyed results: `batch_generator` computes
`num_batches = 1` in its else-branch and never assigns the log label,
so the log f-string raises `UnboundLocalError`. -/
theorem process_request_list_batch_size_eq_length_diverges :
    process_request_list (fun _ => w₀) cm₀ [req₀, req₀, req₀] (some 3) none =
      .error (.unboundLocalError "label") ∧
    process_request_list (fun _ => w₀) cm₀ [req₀, req₀, req₀] none none =
      .ok [(0, .obj [("x", .num 1),
              ("submitted_requests", submittedOf "wateranalysis" "abc" .null)]),
           (1, .obj [("x", .num 1),
              ("submitted_requests", submittedOf "wateranalysis" "abc" .null)]),
           (2, .obj [("x", .num 1),
              ("submitted_requests", submittedOf "wateranalysis" "abc" .null)])] :=
  ⟨rfl, rfl⟩
